import Mathlib

/-!
Shallow embedding of the k8s-directory-status repository (Python sources under
`src/`): the writable-path discovery engine (`overlay_utils.py`), the sizing
helpers (`overlay_utils.get_upperdir_size`, `main.get_path_size_fast`), the
TTL cache and depth-aware listing (`du_runner.py`), the path-safety helpers
(`utils.py`), the byte formatters (`utils.human_bytes`, `mounts.human_bytes`)
and the CLI report pipeline (`check_node_storage_standalone.py`).

External effects (the `du` subprocess, `crictl`, the filesystem, the clock)
are passed in as explicit oracle parameters; machine integers are `Int`/`Nat`
(Python integers are unbounded, so no wrap-around modelling is needed);
wall-clock instants are integers (only their ordering is ever consumed).
-/

/-! ### Python string primitives (over `List Char`)

Python `str.split()` / `str.strip()` treat ASCII whitespace
(space, tab, newline, carriage return, vertical tab, form feed) as
separators; the inputs in this program are `du`/mount-table output, which
only contains these whitespace characters. -/

def pyIsWs (c : Char) : Bool :=
  c == ' ' || c == '\t' || c == '\n' || c == '\r' || c == '\x0b' || c == '\x0c'

/-- Python `str.split()` with no argument: split on runs of whitespace,
discarding empty fields. Accumulator holds the current token reversed. -/
def pySplitWsAux : List Char → List Char → List (List Char)
  | [], acc => if acc = [] then [] else [acc.reverse]
  | c :: rest, acc =>
    if pyIsWs c then
      if acc = [] then pySplitWsAux rest []
      else acc.reverse :: pySplitWsAux rest []
    else pySplitWsAux rest (c :: acc)

def pySplitWsL (s : List Char) : List (List Char) := pySplitWsAux s []

/-- Python `str.strip()`: drop leading and trailing whitespace. -/
def pyStrip (s : List Char) : List Char :=
  ((s.dropWhile pyIsWs).reverse.dropWhile pyIsWs).reverse

/-- Python `needle in hay` on strings: substring containment. -/
def listContains (needle : List Char) : List Char → Bool
  | [] => needle.isEmpty
  | c :: rest => needle.isPrefixOf (c :: rest) || listContains needle rest

def pyIn (needle hay : String) : Bool := listContains needle.toList hay.toList

/-- Python `s.startswith(p)`. -/
def pyStartswith (p s : String) : Bool := p.toList.isPrefixOf s.toList

/-- Python `s.split(sep)` for a non-empty separator, fuel-recursive so that it
stays kernel-reducible. Each step either consumes the separator
(`sep.length ≥ 1` characters) or one character, so `fuel = s.length` is
enough; the fuel-exhausted branch is unreachable for non-empty `sep`. -/
def pySplitOnAux (sep : List Char) : Nat → List Char → List Char → List (List Char)
  | 0, s, acc => [acc.reverse ++ s]
  | _ + 1, [], acc => [acc.reverse]
  | fuel + 1, c :: rest, acc =>
    if sep.isPrefixOf (c :: rest) then
      acc.reverse :: pySplitOnAux sep fuel (List.drop sep.length (c :: rest)) []
    else
      pySplitOnAux sep fuel rest (c :: acc)

def pySplitOnL (s sep : List Char) : List (List Char) :=
  pySplitOnAux sep s.length s []

/-- Digits of a Python integer literal after the first digit: decimal digits
with single underscores allowed between digits (as accepted by `int(str)`). -/
def pyDigitsAux : List Char → Nat → Option Nat
  | [], acc => some acc
  | '_' :: c :: rest, acc =>
    if c.isDigit then pyDigitsAux rest (acc * 10 + (c.toNat - 48)) else none
  | ['_'], _ => none
  | c :: rest, acc =>
    if c.isDigit then pyDigitsAux rest (acc * 10 + (c.toNat - 48)) else none

def pyParseDigits : List Char → Option Nat
  | [] => none
  | c :: rest => if c.isDigit then pyDigitsAux rest (c.toNat - 48) else none

/-- Python `int(tok)` on a token: strips surrounding whitespace, then an
optional sign followed by digits (with single underscores between digits);
`none` models the `ValueError` path. -/
def pyIntOfToken (s : List Char) : Option Int :=
  match pyStrip s with
  | '+' :: rest => (pyParseDigits rest).map Int.ofNat
  | '-' :: rest => (pyParseDigits rest).map (fun n => -(n : Int))
  | rest => (pyParseDigits rest).map Int.ofNat

/-- Join path components with `'/'` (the `'/'.join(comps)` step of
`posixpath.normpath`). -/
def pyJoinSlash : List (List Char) → List Char
  | [] => []
  | [x] => x
  | x :: y :: xs => x ++ '/' :: pyJoinSlash (y :: xs)

/-- One step of the `posixpath.normpath` component loop. -/
def pyNormComp (initialSlashes : Nat) (acc : List (List Char)) (comp : List Char) :
    List (List Char) :=
  if comp = [] ∨ comp = ['.'] then acc
  else if comp ≠ ['.', '.'] ∨ (initialSlashes = 0 ∧ acc = []) ∨
      (acc ≠ [] ∧ acc.getLast? = some ['.', '.']) then acc ++ [comp]
  else if acc ≠ [] then acc.dropLast
  else acc

/-- `posixpath.normpath` (as called by `os.path.normpath` on POSIX): collapse
`//`, `.` and `..` components; an empty path normalizes to `"."`; a path of
exactly two leading slashes keeps both (POSIX special case). -/
def pyNormpathL (p : List Char) : List Char :=
  if p = [] then ['.']
  else
    let initialSlashes : Nat :=
      if ['/', '/'].isPrefixOf p ∧ ¬ (['/', '/', '/'].isPrefixOf p) then 2
      else if ['/'].isPrefixOf p then 1
      else 0
    let comps := pySplitOnL p ['/']
    let newComps := comps.foldl (pyNormComp initialSlashes) []
    let res := List.replicate initialSlashes '/' ++ pyJoinSlash newComps
    if res = [] then ['.'] else res

def pyNormpath (p : String) : String := ⟨pyNormpathL p.toList⟩

/-- Python `os.path.isabs` on POSIX: starts with `'/'`. -/
def pyIsAbs (p : String) : Bool := ['/'].isPrefixOf p.toList

/-- Python `os.path.basename`: everything after the last `'/'`. -/
def pyBasename (p : String) : String :=
  ⟨(pySplitOnL p.toList ['/']).getLastD []⟩

/-- A character admissible in the capture group of the regex
`upperdir=([^,\s]+)`: neither a comma nor whitespace. -/
def isUdChar (c : Char) : Bool := ¬ (pyIsWs c || c == ',')

/-- `re.search(r"upperdir=([^,\s]+)", line)`: scan left to right for the
first position where the literal `upperdir=` is followed by at least one
admissible character; the group is the maximal run of admissible characters
after it. A position where the literal matches but no admissible character
follows does not match the pattern, and the scan continues. -/
def findUpperdirVal : List Char → Option (List Char)
  | [] => none
  | c :: rest =>
    if "upperdir=".toList.isPrefixOf (c :: rest) then
      let v := ((c :: rest).drop 9).takeWhile isUdChar
      if v.isEmpty then findUpperdirVal rest else some v
    else findUpperdirVal rest

/-! ### `utils.py` -/

/-- `utils.is_safe_abs_path`: rejects empty or NUL-containing paths and
non-absolute paths, then checks that the normalized path is still absolute. -/
def is_safe_abs_path (p : String) : Bool :=
  if p.toList = [] || listContains ['\x00'] p.toList then false
  else if ¬ pyIsAbs p then false
  else ['/'].isPrefixOf (pyNormpathL p.toList)

/-- `utils.is_within`: normalize both paths; base `"/"` contains everything;
otherwise the target must equal the base or extend it past a `'/'`
(`os.sep`). -/
def is_within (base target : String) : Bool :=
  let b := pyNormpathL base.toList
  let t := pyNormpathL target.toList
  if b = ['/'] then true
  else t = b || (b ++ ['/']).isPrefixOf t

/-! ### Byte formatters

`utils.human_bytes` and `mounts.human_bytes` both walk the unit list
`B, KiB, …, PiB`, dividing a float by `1024.0`. Dividing an IEEE double by
`1024` is exact (a power of two), every unit boundary `1024^(i+1)` up to
`1024^6 = 2^60` is exactly representable, and `float(n)` rounds to nearest,
so `float(n) < 1024^(i+1)` iff `n < 1024^(i+1)` for every `n < 2^53`; for
`n ≥ 2^53` both sides already exceed the last boundary that matters
(`1024^5 = 2^50`), so the chosen unit index agrees with exact integer
arithmetic for every `n`. The embedding therefore selects the unit with `Nat`
arithmetic, and renders the mantissa from the exact rational `n / 1024^i`
(exact for the concrete values any theorem below evaluates). -/

def pyUnits : List String := ["B", "KiB", "MiB", "GiB", "TiB", "PiB"]

def unitName (i : Nat) : String := pyUnits.getD i "PiB"

/-- Python `f"{v:.1f}"` on the exact rational `p / q` (`q > 0`): one decimal
digit, round half to even (IEEE default rounding of the scaled value). -/
def pyFormat1 (p q : Nat) : String :=
  let t := 10 * p
  let d := t / q
  let r := t % q
  let rounded :=
    if q < 2 * r then d + 1
    else if 2 * r < q then d
    else if d % 2 = 1 then d + 1 else d
  toString (rounded / 10) ++ "." ++ toString (rounded % 10)

/-- Unit-selection loop of `utils.human_bytes`: at index `i` with
`fuel = 5 - i` units left after the current one, stop when the scaled value
is below `1024` (`n < 1024^(i+1)`) or the unit list is exhausted. -/
def utilsUnitIdxAux (n : Nat) : Nat → Nat → Nat
  | 0, i => i
  | fuel + 1, i => if n < 1024 ^ (i + 1) then i else utilsUnitIdxAux n fuel (i + 1)

def utils_unit_idx (n : Nat) : Nat := utilsUnitIdxAux n 5 0

/-- `utils.human_bytes` (also inlined verbatim in
`check_node_storage_standalone.py` and `ansible_check_node.py`): clamps the
argument at `0` (`max(n, 0)`), picks the unit, and renders the `B` unit as a
bare integer (`f"{int(v)} B"`) and every other unit with one decimal. The
`n is None` branch is unrepresentable for an `Int` argument and is omitted. -/
def utils_human_bytes (n : Int) : String :=
  let m : Nat := n.toNat
  let i := utils_unit_idx m
  if i = 0 then toString m ++ " B"
  else pyFormat1 m (1024 ^ i) ++ " " ++ unitName i

/-- Unit-selection loop of `mounts.human_bytes`:
`while size >= 1024.0 and i < len(units) - 1`. -/
def mountsUnitIdxAux (n : Nat) : Nat → Nat → Nat
  | 0, i => i
  | fuel + 1, i => if 1024 ^ (i + 1) ≤ n then mountsUnitIdxAux n fuel (i + 1) else i

def mounts_unit_idx (n : Nat) : Nat := mountsUnitIdxAux n 5 0

/-- `mounts.human_bytes`: negative sizes render as `"0 B"`; otherwise the
value is rendered with one decimal in every unit, including `B`
(`f"{size:.1f} {units[i]}"`). -/
def mounts_human_bytes (n : Int) : String :=
  if n < 0 then "0 B"
  else
    let m : Nat := n.toNat
    let i := mounts_unit_idx m
    pyFormat1 m (1024 ^ i) ++ " " ++ unitName i

/-! ### `overlay_utils.py`: overlay discovery -/

/-- Metadata for one container as parsed from `crictl ps --output=json`
(`get_container_info`); `namespc` embeds the Python dict key `"namespace"`
(a reserved word in Lean). -/
structure ContainerMeta where
  name : String
  pod : String
  namespc : String
deriving DecidableEq

/-- One record produced by `get_overlay_upperdirs` (a Python dict with fixed
keys). -/
structure OverlayRec where
  type : String
  container_id : String
  container_name : String
  pod : String
  namespc : String
  path : String
  mountpoint : String
deriving DecidableEq

/-- The per-line extraction steps of `get_overlay_upperdirs`, up to but not
including the running-container filter: require `" - overlay "` in the line,
at least 5 whitespace-separated fields, `"/k8s.io/"` in field 4 (the
mountpoint), and an `upperdir=` option (regex `upperdir=([^,\s]+)` over the
whole line); the container ID is the path segment following the first
`"/k8s.io/"`. Returns `(mountpoint, upperdir, container_id_full)`. -/
def parse_overlay_line (line : String) : Option (String × String × String) :=
  let l := line.toList
  if ¬ listContains " - overlay ".toList l then none
  else
    let parts := pySplitWsL l
    if parts.length < 5 then none
    else
      let mountpoint := parts.getD 4 []
      if ¬ listContains "/k8s.io/".toList mountpoint then none
      else
        match findUpperdirVal l with
        | none => none
        | some ud =>
          let cid := (pySplitOnL ((pySplitOnL mountpoint "/k8s.io/".toList).getD 1 []) ['/']).getD 0 []
          some (⟨mountpoint⟩, ⟨ud⟩, ⟨cid⟩)

/-- The record built for a surviving overlay entry: container ID truncated to
12 characters (`[:12]`), metadata looked up by the full ID with empty-string
defaults (`container_info.get(cid, {})` / `.get(key, "")`). -/
def mkOverlayRec (container_info : List (String × ContainerMeta))
    (mountpoint upperdir cid : String) : OverlayRec :=
  let info := container_info.lookup cid
  { type := "overlay"
    container_id := ⟨cid.toList.take 12⟩
    container_name := (info.map (·.name)).getD ""
    pod := (info.map (·.pod)).getD ""
    namespc := (info.map (·.namespc)).getD ""
    path := upperdir
    mountpoint := mountpoint }

/-- The per-line body of the `get_overlay_upperdirs` scan loop: parse, then
apply the running-container filter
(`if running_ids and container_id_full not in running_ids: continue`).
An empty `running_ids` set (the runtime CLI failed, or reported nothing)
disables the filter. -/
def emit_overlay_line (running_ids : List String)
    (container_info : List (String × ContainerMeta)) (line : String) :
    Option OverlayRec :=
  match parse_overlay_line line with
  | none => none
  | some (mp, ud, cid) =>
    if ¬ running_ids.isEmpty && ¬ running_ids.contains cid then none
    else some (mkOverlayRec container_info mp ud cid)

/-- `get_overlay_upperdirs`, abstracted over its effectful inputs: the lines
of the selected `mountinfo` file, the running-ID set from
`get_running_container_ids` (a set of strings; empty on any failure), and the
metadata map from `get_container_info` (an association list standing for the
Python dict). -/
def get_overlay_upperdirs (lines : List String) (running_ids : List String)
    (container_info : List (String × ContainerMeta)) : List OverlayRec :=
  lines.filterMap (emit_overlay_line running_ids container_info)

/-! ### Sizing engine (`overlay_utils.get_upperdir_size`,
`main.get_path_size_fast`)

A `du` subprocess invocation either completes with an exit code, stdout and
stderr, times out (`subprocess.TimeoutExpired`), or raises some other
exception (tool missing, etc.); the subprocess itself is an oracle
parameter. -/

inductive DuOutcome where
  | completed (returncode : Int) (stdout : String) (stderr : String)
  | timedOut
  | raised (msg : String)
deriving DecidableEq

/-- The `(bytes, human, status)` triple returned by `get_upperdir_size`. -/
structure SizeResult where
  bytes : Int
  human : String
  status : String
deriving DecidableEq

/-- Host-prefix resolution at the top of `get_upperdir_size`: if the path
does not already start with `/host` and does not exist, retry it under the
`/host` bind-mount prefix. `fsExists` is the `os.path.exists` oracle. -/
def resolve_target (fsExists : String → Bool) (path : String) : String :=
  if ¬ pyStartswith "/host" path && ¬ fsExists path then "/host" ++ path else path

/-- `overlay_utils.get_upperdir_size` (the same code is inlined in
`check_node_storage_standalone.py` and `ansible_check_node.py`): resolve the
host prefix, report `Not found` for a missing path, then run
`du -sx -B1 -- <target>`; exit codes 0 and 1 with non-empty output are
success, with the leading whitespace-delimited token of stdout parsed as the
byte count; a non-integer token raises `ValueError`, caught by the generic
handler (the embedded message abbreviates Python's
`invalid literal for int() …` text); other exit codes or empty output report
a diagnostic from stderr truncated to 80 characters; a timeout reports the
bound. `du` is the oracle `target ↦ timeout ↦ outcome`. -/
def get_upperdir_size (fsExists : String → Bool)
    (du : String → Nat → DuOutcome) (path : String) (timeout_sec : Nat) :
    SizeResult :=
  let target := resolve_target fsExists path
  if ¬ fsExists target then ⟨-1, "Not found", "error"⟩
  else
    match du target timeout_sec with
    | .completed rc out err =>
      if (rc == 0 || rc == 1) && ¬ (pyStrip out.toList).isEmpty then
        match pyIntOfToken ((pySplitWsL out.toList).getD 0 []) with
        | some n => ⟨n, utils_human_bytes n, "ok"⟩
        | none => ⟨-1, "Error: invalid literal for int()", "error"⟩
      else ⟨-1, "du error: " ++ ⟨(pyStrip err.toList).take 80⟩, "error"⟩
    | .timedOut => ⟨-1, "Timeout (" ++ toString timeout_sec ++ "s)", "error"⟩
    | .raised msg => ⟨-1, "Error: " ++ msg, "error"⟩

/-- One row of the `/api/paths/summary` response built by
`main.get_path_size_fast`; `error` embeds the `"error"` key that is present
only in failure dicts. -/
structure PathSummary where
  path : String
  total_bytes : Int
  total_human : String
  status : String
  error : Option String
deriving DecidableEq

/-- `main.get_path_size_fast`: run `du -s -x -B1 -- <path>` with a fixed
10-second timeout; exit codes 0/1 with non-empty stripped output parse the
leading token as the byte count; every failure path returns
`total_bytes = 0` (not `-1`) with placeholder `total_human` `"Error"` or
`"Timeout"`; a failed completion carries stripped stderr (or `"du failed"`
when stderr is empty) in `error`; a non-integer token raises `ValueError`,
caught by the generic `except` (message abbreviated). -/
def get_path_size_fast (du : String → DuOutcome) (path : String) :
    PathSummary :=
  match du path with
  | .completed rc out err =>
    if (rc == 0 || rc == 1) && ¬ (pyStrip out.toList).isEmpty then
      match pyIntOfToken ((pySplitWsL (pyStrip out.toList)).getD 0 []) with
      | some n => ⟨path, n, utils_human_bytes n, "ok", none⟩
      | none => ⟨path, 0, "Error", "error", some "invalid literal for int()"⟩
    else
      ⟨path, 0, "Error", "error",
        some (if err = "" then "du failed" else ⟨pyStrip err.toList⟩)⟩
  | .timedOut => ⟨path, 0, "Timeout", "error", some "Timeout after 10s"⟩
  | .raised msg => ⟨path, 0, "Error", "error", some msg⟩

/-- Modelled from the spec: `get_actual_mount_size` is imported by `main.py`
(`from overlay_utils import get_actual_mount_size`) but its definition is
absent from the sources provided, so it is reconstructed from §4.4 of the
specification: the filesystem root `"/"` and the designated host-root
sentinel (the `/host` bind-mount prefix of the glossary) always yield `Skip`
without invoking the sizing tool; otherwise resolve the host prefix, report
`Not found` for a missing path, and run the sizing tool as
`get_upperdir_size` does. The second component records whether the sizing
tool was invoked. Per the spec's sentinel convention, `Skip` carries
`bytes = -1` and a placeholder human field. -/
def get_actual_mount_size (fsExists : String → Bool)
    (du : String → Nat → DuOutcome) (mountpoint : String) (fstype : String)
    (timeout_sec : Nat) : SizeResult × Bool :=
  if mountpoint == "/" || mountpoint == "/host" then (⟨-1, "-", "skip"⟩, false)
  else
    let target := resolve_target fsExists mountpoint
    if ¬ fsExists target then (⟨-1, "Not found", "error"⟩, false)
    else
      match du target timeout_sec with
      | .completed rc out err =>
        if (rc == 0 || rc == 1) && ¬ (pyStrip out.toList).isEmpty then
          match pyIntOfToken ((pySplitWsL out.toList).getD 0 []) with
          | some n => (⟨n, utils_human_bytes n, "ok"⟩, true)
          | none => (⟨-1, "Error: invalid literal for int()", "error"⟩, true)
        else (⟨-1, "du error: " ++ ⟨(pyStrip err.toList).take 80⟩, "error"⟩, true)
      | .timedOut => (⟨-1, "Timeout (" ++ toString timeout_sec ++ "s)", "error"⟩, true)
      | .raised msg => (⟨-1, "Error: " ++ msg, "error"⟩, true)

/-! ### The CLI batch pipeline (`check_node_storage_standalone.py` `main`) -/

/-- The fields of a collected writable-path dict that the sizing loop and the
report sorts read (`item["path"]`, `item["type"]`, `item["container_name"]`);
the remaining display fields ride along unchanged through `{**item, ...}`. -/
structure WorkItem where
  type : String
  container_name : String
  path : String
deriving DecidableEq

/-- A sized record: the original item plus the `actual_bytes` /
`actual_human` / `actual_status` keys added by `work`. -/
structure SizedRecord where
  item : WorkItem
  actual_bytes : Int
  actual_human : String
  actual_status : String
deriving DecidableEq

/-- The `work` closure of `main`: measure one item's path and merge the
result into the record. -/
def work_one (fsExists : String → Bool) (du : String → Nat → DuOutcome)
    (timeout_sec : Nat) (it : WorkItem) : SizedRecord :=
  let r := get_upperdir_size fsExists du it.path timeout_sec
  ⟨it, r.bytes, r.human, r.status⟩

/-- The sizing fan-out of `main` with no filter configured (`--skip-zero`
absent): every future's result is appended exactly once. The thread pool
collects in completion order; the embedding lists results in submission
order, which fixes one representative of that nondeterministic order — the
properties proved below (counts, lengths, per-record values) are invariant
under permutation. -/
def size_all (fsExists : String → Bool) (du : String → Nat → DuOutcome)
    (timeout_sec : Nat) (items : List WorkItem) : List SizedRecord :=
  items.map (work_one fsExists du timeout_sec)

/-- `results.sort(key=lambda x: x.get('actual_bytes', -1), reverse=True)`:
Python's stable descending sort by `actual_bytes` (every record produced by
`work` has the key). A stable sort with respect to this total preorder is
unique, so Python's timsort is embedded as insertion sort over
`a ≽ b ⇔ b.actual_bytes ≤ a.actual_bytes`, which Mathlib proves stable. -/
def sort_by_size (rs : List SizedRecord) : List SizedRecord :=
  rs.insertionSort (fun a b => b.actual_bytes ≤ a.actual_bytes)

/-! ### `du_runner.py`: TTL cache and depth-aware listing

`time.time()` instants are passed in explicitly; only their ordering against
the TTL enters the code's behaviour (`now - ts > ttl_sec`), so instants and
the TTL are embedded as integers. The two clock reads inside one
`list_children_sizes` call (cache read and cache write) are modelled as a
single instant `now`. The Python dict backing `DuCache` is
embedded as an association list with unique keys (`set` replaces any
previous binding; `get` pops an expired one). -/

/-- `du_runner.DuEntry`. -/
structure DuEntry where
  path : String
  bytes : Int
deriving DecidableEq

/-- Cache key: `(os.path.normpath(path), depth, one_fs)`. -/
abbrev DuKey := String × Nat × Bool

structure DuCache where
  ttl_sec : Int
  entries : List (DuKey × Int × List DuEntry)
deriving DecidableEq

/-- `DuCache.get`: absent key gives `None`; an entry older than the TTL
(strictly, `now - ts > ttl_sec`) is popped and gives `None`; otherwise the
stored rows are returned. The possibly-updated cache is returned alongside. -/
def DuCache.get (c : DuCache) (now : Int) (key : DuKey) :
    Option (List DuEntry) × DuCache :=
  match c.entries.lookup key with
  | none => (none, c)
  | some (ts, data) =>
    if c.ttl_sec < now - ts then
      (none, ⟨c.ttl_sec, c.entries.filter (fun e => ¬ (e.1 == key))⟩)
    else (some data, c)

/-- `DuCache.set`: store `(now, data)` under `key`, replacing any previous
binding (dict assignment). -/
def DuCache.set (c : DuCache) (now : Int) (key : DuKey) (data : List DuEntry) :
    DuCache :=
  ⟨c.ttl_sec, (key, now, data) :: c.entries.filter (fun e => ¬ (e.1 == key))⟩

/-- The two directory-sizing scanners dispatched by `list_children_sizes`:
`run_du_parallel` (the native `os.scandir` walk used for `depth == 1`, which
ignores `one_fs` and the timeout) and `run_du` (the external
`du -B1 -d<depth> [-x] -- <path>` tool). Both produce one row per child plus
a row for the path itself; both are oracles here. -/
structure DuScanners where
  parallel : String → List DuEntry
  duTool : String → Nat → Bool → Nat → List DuEntry

/-- One row of the `entries` list in the `list_children_sizes` response. -/
structure ChildRow where
  path : String
  name : String
  bytes : Int
  human : String
deriving DecidableEq

/-- The dict returned by `list_children_sizes`. -/
structure DuListing where
  path : String
  total_bytes : Option Int
  total_human : String
  entries : List ChildRow
deriving DecidableEq

/-- The exceptions `list_children_sizes` raises: `ValueError` for an unsafe
path, `PermissionError` for a path outside the allowed roots. -/
inductive PyErr where
  | valueError (msg : String)
  | permissionError (msg : String)
deriving DecidableEq

/-- Build the response dict from the (cached or fresh) rows: the last row
whose normalized path equals the normalized input becomes `total_bytes`
(`total` is reassigned on every match); all other rows become `entries`,
sorted by bytes descending (stable, embedded as insertion sort);
`total_human` formats `total or 0`. -/
def build_du_listing (path : String) (data : List DuEntry) : DuListing :=
  let norm := pyNormpath path
  let total := ((data.filter (fun e => pyNormpath e.path == norm)).getLast?).map (·.bytes)
  let children := data.filter (fun e => ¬ (pyNormpath e.path == norm))
  let sortedC := children.insertionSort (fun a b => b.bytes ≤ a.bytes)
  { path := norm
    total_bytes := total
    total_human := utils_human_bytes (total.getD 0)
    entries := sortedC.map (fun e =>
      ⟨e.path, if pyBasename e.path = "" then e.path else pyBasename e.path,
        e.bytes, utils_human_bytes e.bytes⟩) }

/-- `du_runner.list_children_sizes`: validate the path
(`ValueError` if unsafe), enforce the allowed-roots rail (`PermissionError`
if a non-empty root list contains the path in none of its roots), then
consult the cache under `(normpath(path), depth, one_fs)` and on a miss run
the scanner for the requested depth and store the rows. Returns the
response (or exception), the resulting cache state, and whether a scanner
was invoked. -/
def list_children_sizes (sc : DuScanners) (now : Int) (cache : DuCache)
    (path : String) (depth : Nat) (timeout_sec : Nat) (one_fs : Bool)
    (allowed_roots : List String) :
    Except PyErr DuListing × DuCache × Bool :=
  if ¬ is_safe_abs_path path then
    (.error (.valueError "path must be an absolute path"), cache, false)
  else if ¬ allowed_roots.isEmpty &&
      ¬ allowed_roots.any (fun r => is_within r path) then
    (.error (.permissionError "path is outside allowed roots"), cache, false)
  else
    let key : DuKey := (pyNormpath path, depth, one_fs)
    match cache.get now key with
    | (some data, c1) => (.ok (build_du_listing path data), c1, false)
    | (none, c1) =>
      let data := if depth == 1 then sc.parallel path
                  else sc.duTool path depth one_fs timeout_sec
      (.ok (build_du_listing path data), c1.set now key data, true)

/-- Decidable equality for the result type of `list_children_sizes`. -/
instance : DecidableEq (Except PyErr DuListing)
  | .error e, .error f =>
    decidable_of_iff (e = f) (by simp)
  | .error _, .ok _ => isFalse (by simp)
  | .ok _, .error _ => isFalse (by simp)
  | .ok a, .ok b => decidable_of_iff (a = b) (by simp)

/-! ### Predicates used in theorem statements -/

/-- The leading whitespace-delimited token of a completed `du` invocation's
stdout is non-negative whenever it parses as an integer (true of every real
`du -B1` output; constrains nothing on timeout/raise). -/
def nonnegLeadToken : DuOutcome → Bool
  | .completed _ out _ =>
    match pyIntOfToken ((pySplitWsL out.toList).getD 0 []) with
    | some n => decide (0 ≤ n)
    | none => true
  | .timedOut => true
  | .raised _ => true

/-- As `nonnegLeadToken`, but for the token extraction of
`get_path_size_fast` (which splits the stripped stdout). -/
def nonnegLeadTokenFast : DuOutcome → Bool
  | .completed _ out _ =>
    match pyIntOfToken ((pySplitWsL (pyStrip out.toList)).getD 0 []) with
    | some n => decide (0 ≤ n)
    | none => true
  | .timedOut => true
  | .raised _ => true

/-- A path on which `get_upperdir_size` takes its success branch: the
resolved target exists, `du` completes with exit code 0 or 1, non-empty
output, and an integer leading token. -/
def measuresOk (fsExists : String → Bool) (du : String → Nat → DuOutcome)
    (timeout_sec : Nat) (path : String) : Bool :=
  let tgt := resolve_target fsExists path
  fsExists tgt &&
    match du tgt timeout_sec with
    | .completed rc out _ =>
      (rc == 0 || rc == 1) && ¬ (pyStrip out.toList).isEmpty &&
        (pyIntOfToken ((pySplitWsL out.toList).getD 0 [])).isSome
    | .timedOut => false
    | .raised _ => false

/-! ## Claims -/

/-- C3: for every timeout value (and every filesystem/`du` oracle and
`fstype`), measuring the path `"/"` or the designated host-root sentinel
path `"/host"` yields a `skip` result and the sizing tool is not invoked,
regardless of all other parameters. (`get_actual_mount_size` is modelled
from the spec, being absent from the provided sources.) -/
theorem C3_root_skip (fsExists : String → Bool) (du : String → Nat → DuOutcome)
    (fstype : String) (timeout_sec : Nat) :
    get_actual_mount_size fsExists du "/" fstype timeout_sec =
      (⟨-1, "-", "skip"⟩, false) ∧
    get_actual_mount_size fsExists du "/host" fstype timeout_sec =
      (⟨-1, "-", "skip"⟩, false) := by
  exact ⟨rfl, rfl⟩

/-- C10: `is_within` matches on whole path components after normalization:
when the normalized base is not `"/"`, `is_within base target` holds iff the
normalized target equals the normalized base or starts with the normalized
base followed by the path separator; when the normalized base is `"/"`, it
holds for every target. -/
theorem C10_is_within_components (base target : String) :
    (pyNormpathL base.toList ≠ ['/'] →
      (is_within base target = true ↔
        pyNormpathL target.toList = pyNormpathL base.toList ∨
        (pyNormpathL base.toList ++ ['/']).isPrefixOf
          (pyNormpathL target.toList) = true)) ∧
    (pyNormpathL base.toList = ['/'] → is_within base target = true) := by
  constructor
  · intro h
    rw [is_within]
    simp only [if_neg h, Bool.or_eq_true, decide_eq_true_eq]
  · intro h
    rw [is_within]
    simp only [if_pos h]

/-- Witness for C10: `"/database"` is not within `"/data"`, `"/data/sub"`
is, and base `"/"` admits an arbitrary path. -/
theorem C10_is_within_components_witness :
    is_within "/data" "/database" = false ∧
    is_within "/data" "/data/sub" = true ∧
    is_within "/" "/etc" = true := by
  refine ⟨?_, ?_, ?_⟩
  · have h := (C10_is_within_components "/data" "/database").1 (by decide)
    cases hb : is_within "/data" "/database"
    · rfl
    · exact absurd (h.mp hb) (by decide)
  · exact ((C10_is_within_components "/data" "/data/sub").1 (by decide)).mpr
      (by decide)
  · exact (C10_is_within_components "/" "/etc").2 (by decide)

theorem utilsUnitIdxAux_ge (n : Nat) :
    ∀ fuel i, i ≤ utilsUnitIdxAux n fuel i := by
  intro fuel
  induction fuel with
  | zero => intro i; simp [utilsUnitIdxAux]
  | succ f ih =>
    intro i
    rw [utilsUnitIdxAux]
    split
    · exact le_refl i
    · exact le_trans (Nat.le_succ i) (ih (i + 1))

theorem utilsUnitIdxAux_lb (n : Nat) :
    ∀ fuel i k, k ≤ i + fuel → 1024 ^ k ≤ n → k ≤ utilsUnitIdxAux n fuel i := by
  intro fuel
  induction fuel with
  | zero => intro i k hk _; simpa [utilsUnitIdxAux] using hk
  | succ f ih =>
    intro i k hk hn
    rw [utilsUnitIdxAux]
    split
    · rename_i hlt
      by_contra hik
      push_neg at hik
      have : 1024 ^ (i + 1) ≤ 1024 ^ k :=
        Nat.pow_le_pow_right (by norm_num) hik
      omega
    · exact ih (i + 1) k (by omega) hn

theorem utilsUnitIdxAux_ub (n : Nat) (k : Nat) (hn : n < 1024 ^ (k + 1)) :
    ∀ fuel i, utilsUnitIdxAux n fuel i ≤ max i k := by
  intro fuel
  induction fuel with
  | zero => intro i; simp [utilsUnitIdxAux]
  | succ f ih =>
    intro i
    rw [utilsUnitIdxAux]
    split
    · exact le_max_left i k
    · rename_i hge
      push_neg at hge
      have hik : i < k := by
        by_contra hik
        push_neg at hik
        have : 1024 ^ (k + 1) ≤ 1024 ^ (i + 1) :=
          Nat.pow_le_pow_right (by norm_num) (by omega)
        omega
      have := ih (i + 1)
      have hmax : max (i + 1) k = k := by omega
      rw [hmax] at this
      exact le_trans this (le_max_right i k)

theorem utilsUnitIdxAux_mono (n m : Nat) (hnm : n ≤ m) :
    ∀ fuel i, utilsUnitIdxAux n fuel i ≤ utilsUnitIdxAux m fuel i := by
  intro fuel
  induction fuel with
  | zero => intro i; simp [utilsUnitIdxAux]
  | succ f ih =>
    intro i
    rcases Nat.lt_or_ge m (1024 ^ (i + 1)) with hm | hm
    · have hn : n < 1024 ^ (i + 1) := lt_of_le_of_lt hnm hm
      rw [utilsUnitIdxAux, utilsUnitIdxAux, if_pos hn, if_pos hm]
    · rcases Nat.lt_or_ge n (1024 ^ (i + 1)) with hn | hn
      · rw [utilsUnitIdxAux, utilsUnitIdxAux, if_pos hn, if_neg (by omega)]
        exact le_trans (Nat.le_succ i) (utilsUnitIdxAux_ge m f (i + 1))
      · rw [utilsUnitIdxAux, utilsUnitIdxAux, if_neg (by omega), if_neg (by omega)]
        exact ih (i + 1)

theorem mountsUnitIdxAux_eq (n : Nat) :
    ∀ fuel i, mountsUnitIdxAux n fuel i = utilsUnitIdxAux n fuel i := by
  intro fuel
  induction fuel with
  | zero => intro i; rfl
  | succ f ih =>
    intro i
    rw [mountsUnitIdxAux, utilsUnitIdxAux]
    rcases Nat.lt_or_ge n (1024 ^ (i + 1)) with h | h
    · rw [if_neg (by omega), if_pos h]
    · rw [if_pos h, if_neg (by omega), ih]

/-- Counterexample for C9 as stated: the `mounts.py` implementation of the
byte formatter renders zero as `"0.0 B"`, not `"0 B"` (its `B` unit also
carries one decimal), so `humanSize(0) = "0 B"` fails for one of the two
implementations the claim quantifies over. -/
theorem C9_mounts_zero_counterexample :
    mounts_human_bytes 0 ≠ "0 B" ∧ mounts_human_bytes 0 = "0.0 B" := by
  exact ⟨by decide, by decide⟩

/-- C9 (amended): `utils.human_bytes 0 = "0 B"` but
`mounts.human_bytes 0 = "0.0 B"`; for both implementations the displayed
unit index is at least `k` whenever `1024^k ≤ n` (for the representable
units `k ≤ 5`), exactly `k` when moreover `n < 1024^(k+1)`, and
monotonically non-decreasing in `n`. -/
theorem C9_human_bytes_units :
    utils_human_bytes 0 = "0 B" ∧
    mounts_human_bytes 0 = "0.0 B" ∧
    (∀ n k : Nat, k ≤ 5 → 1024 ^ k ≤ n →
      k ≤ utils_unit_idx n ∧ k ≤ mounts_unit_idx n) ∧
    (∀ n k : Nat, k ≤ 5 → 1024 ^ k ≤ n → n < 1024 ^ (k + 1) →
      utils_unit_idx n = k ∧ mounts_unit_idx n = k) ∧
    (∀ n m : Nat, n ≤ m →
      utils_unit_idx n ≤ utils_unit_idx m ∧
      mounts_unit_idx n ≤ mounts_unit_idx m) := by
  refine ⟨by decide, by decide, ?_, ?_, ?_⟩
  · intro n k hk hn
    have h := utilsUnitIdxAux_lb n 5 0 k (by omega) hn
    exact ⟨h, by rw [mounts_unit_idx, mountsUnitIdxAux_eq]; exact h⟩
  · intro n k hk hlb hub
    have h1 := utilsUnitIdxAux_lb n 5 0 k (by omega) hlb
    have h2 := utilsUnitIdxAux_ub n k hub 5 0
    have h : utils_unit_idx n = k := by
      rw [utils_unit_idx]; omega
    exact ⟨h, by rw [mounts_unit_idx, mountsUnitIdxAux_eq]; exact h⟩
  · intro n m hnm
    have h := utilsUnitIdxAux_mono n m hnm 5 0
    exact ⟨h, by rw [mounts_unit_idx, mounts_unit_idx, mountsUnitIdxAux_eq,
      mountsUnitIdxAux_eq]; exact h⟩

/-- Witness for C9 (amended): `1024^2 ≤ 2 MiB < 1024^3` selects unit index 2
(`MiB`) in both implementations, and growing the argument does not decrease
the unit index. -/
theorem C9_human_bytes_units_witness :
    (utils_unit_idx 2097152 = 2 ∧ mounts_unit_idx 2097152 = 2) ∧
    (2 ≤ utils_unit_idx 3145728 ∧ 2 ≤ mounts_unit_idx 3145728) ∧
    (utils_unit_idx 1023 ≤ utils_unit_idx 1048576 ∧
      mounts_unit_idx 1023 ≤ mounts_unit_idx 1048576) := by
  refine ⟨?_, ?_, ?_⟩
  · exact C9_human_bytes_units.2.2.2.1 2097152 2 (by decide) (by decide) (by decide)
  · exact C9_human_bytes_units.2.2.1 3145728 2 (by decide) (by decide)
  · exact C9_human_bytes_units.2.2.2.2 1023 1048576 (by decide)

/-- Counterexample for C2 as stated: `get_path_size_fast` (the per-path
summary helper) returns `total_bytes = 0`, not `-1`, on a failed `du`
invocation (here: exit code 2 with empty output), so `status ≠ ok ⇒
bytes = -1` fails for one of the two measurement operations the claim
quantifies over. -/
theorem C2_sentinel_counterexample :
    (get_path_size_fast (fun _ => DuOutcome.completed 2 "" "disk error")
        "/var/lib/x").status = "error" ∧
    (get_path_size_fast (fun _ => DuOutcome.completed 2 "" "disk error")
        "/var/lib/x").total_bytes = 0 ∧
    (get_path_size_fast (fun _ => DuOutcome.completed 2 "" "disk error")
        "/var/lib/x").total_bytes ≠ -1 := by
  exact ⟨by decide, by decide, by decide⟩

/-- C2 (amended): `status = ok ⇒ bytes ≥ 0` holds for both measurement
operations whenever the tool's leading stdout token is non-negative (true of
real `du -B1` output); `status ≠ ok ⇒ bytes = -1` holds for
`get_upperdir_size`, whose non-ok human field is one of the descriptive
placeholders `Not found` / `du error: …` / `Timeout (Ns)` / `Error: …`; but
`get_path_size_fast` uses `0`, not `-1`, as its non-ok byte value, with
placeholder `Error` or `Timeout` in its human field. -/
theorem C2_sentinel_amended (fsExists : String → Bool)
    (du : String → Nat → DuOutcome) (path : String) (timeout_sec : Nat)
    (duF : String → DuOutcome) (path2 : String) :
    ((get_upperdir_size fsExists du path timeout_sec).status ≠ "ok" →
      (get_upperdir_size fsExists du path timeout_sec).bytes = -1 ∧
      ((get_upperdir_size fsExists du path timeout_sec).human = "Not found" ∨
        (∃ s, (get_upperdir_size fsExists du path timeout_sec).human =
          "du error: " ++ s) ∨
        (get_upperdir_size fsExists du path timeout_sec).human =
          "Timeout (" ++ toString timeout_sec ++ "s)" ∨
        (∃ s, (get_upperdir_size fsExists du path timeout_sec).human =
          "Error: " ++ s))) ∧
    (nonnegLeadToken (du (resolve_target fsExists path) timeout_sec) = true →
      (get_upperdir_size fsExists du path timeout_sec).status = "ok" →
      0 ≤ (get_upperdir_size fsExists du path timeout_sec).bytes) ∧
    ((get_path_size_fast duF path2).status ≠ "ok" →
      (get_path_size_fast duF path2).total_bytes = 0 ∧
      ((get_path_size_fast duF path2).total_human = "Error" ∨
        (get_path_size_fast duF path2).total_human = "Timeout")) ∧
    (nonnegLeadTokenFast (duF path2) = true →
      (get_path_size_fast duF path2).status = "ok" →
      0 ≤ (get_path_size_fast duF path2).total_bytes) := by
  refine ⟨?_, ?_, ?_, ?_⟩
  · rw [get_upperdir_size]
    split
    · intro _; exact ⟨rfl, Or.inl rfl⟩
    · split
      · split
        · split
          · intro hst; exact absurd rfl hst
          · intro _; exact ⟨rfl, Or.inr (Or.inr (Or.inr ⟨_, rfl⟩))⟩
        · intro _; exact ⟨rfl, Or.inr (Or.inl ⟨_, rfl⟩)⟩
      · intro _; exact ⟨rfl, Or.inr (Or.inr (Or.inl rfl))⟩
      · intro _; exact ⟨rfl, Or.inr (Or.inr (Or.inr ⟨_, rfl⟩))⟩
  · intro htok
    rw [get_upperdir_size]
    split
    · intro hst; simp at hst
    · split
      · rename_i rc out err hdu
        rw [nonnegLeadToken.eq_def, hdu] at htok
        split
        · split
          · rename_i n hn
            simp only [hn, decide_eq_true_eq] at htok
            intro _
            exact htok
          · intro hst; simp at hst
        · intro hst; simp at hst
      · intro hst; simp at hst
      · intro hst; simp at hst
  · rw [get_path_size_fast]
    split
    · split
      · split
        · intro hst; exact absurd rfl hst
        · intro _; exact ⟨rfl, Or.inl rfl⟩
      · intro _; exact ⟨rfl, Or.inl rfl⟩
    · intro _; exact ⟨rfl, Or.inr rfl⟩
    · intro _; exact ⟨rfl, Or.inl rfl⟩
  · intro htok
    rw [get_path_size_fast]
    split
    · rename_i rc out err hdu
      rw [nonnegLeadTokenFast.eq_def, hdu] at htok
      split
      · split
        · rename_i n hn
          simp only [hn, decide_eq_true_eq] at htok
          intro _
          exact htok
        · intro hst; simp at hst
      · intro hst; simp at hst
    · intro hst; simp at hst
    · intro hst; simp at hst

/-- Witness for C2 (amended): a successful measurement of an existing path
yields non-negative bytes, and a timed-out `get_path_size_fast` yields
`bytes = 0` with the `"Timeout"` placeholder. -/
theorem C2_sentinel_amended_witness :
    0 ≤ (get_upperdir_size (fun _ => true)
      (fun _ _ => DuOutcome.completed 0 "4096\t/x" "") "/x" 60).bytes ∧
    (get_path_size_fast (fun _ => DuOutcome.timedOut) "/p").total_bytes = 0 ∧
    ((get_path_size_fast (fun _ => DuOutcome.timedOut) "/p").total_human =
        "Error" ∨
      (get_path_size_fast (fun _ => DuOutcome.timedOut) "/p").total_human =
        "Timeout") := by
  have h := C2_sentinel_amended (fun _ => true)
    (fun _ _ => DuOutcome.completed 0 "4096\t/x" "") "/x" 60
    (fun _ => DuOutcome.timedOut) "/p"
  refine ⟨h.2.1 (by decide) (by decide), ?_, ?_⟩
  · exact (h.2.2.1 (by decide)).1
  · exact (h.2.2.1 (by decide)).2

/-- C7: for a sizing-tool invocation on an existing (resolved) path: exit
codes 0 and 1 with non-empty output are both success, the leading integer
token of the output becoming the byte count; any other exit code, or empty
output, yields an error whose diagnostic is the tool's stderr (stripped)
truncated to at most 80 characters; a timeout yields an error reporting the
timeout bound in seconds. -/
theorem C7_tool_outcomes (fsExists : String → Bool)
    (du : String → Nat → DuOutcome) (path : String) (timeout_sec : Nat)
    (hex : fsExists (resolve_target fsExists path) = true) :
    (∀ rc out err n,
      du (resolve_target fsExists path) timeout_sec =
        DuOutcome.completed rc out err →
      (rc = 0 ∨ rc = 1) → pyStrip out.toList ≠ [] →
      pyIntOfToken ((pySplitWsL out.toList).getD 0 []) = some n →
      get_upperdir_size fsExists du path timeout_sec =
        ⟨n, utils_human_bytes n, "ok"⟩) ∧
    (∀ rc out err,
      du (resolve_target fsExists path) timeout_sec =
        DuOutcome.completed rc out err →
      (¬ (rc = 0 ∨ rc = 1) ∨ pyStrip out.toList = []) →
      get_upperdir_size fsExists du path timeout_sec =
        ⟨-1, "du error: " ++ ⟨(pyStrip err.toList).take 80⟩, "error"⟩ ∧
      ((pyStrip err.toList).take 80).length ≤ 80) ∧
    (du (resolve_target fsExists path) timeout_sec = DuOutcome.timedOut →
      get_upperdir_size fsExists du path timeout_sec =
        ⟨-1, "Timeout (" ++ toString timeout_sec ++ "s)", "error"⟩) := by
  refine ⟨?_, ?_, ?_⟩
  · intro rc out err n hdu hrc hout hn
    have h1 : (rc == 0 || rc == 1) = true := by
      rcases hrc with h | h <;> simp [h]
    have h2 : (pyStrip out.toList).isEmpty = false := by
      simpa [List.isEmpty_iff] using hout
    rw [get_upperdir_size, if_neg (by simp [hex])]
    simp only [hdu]
    rw [if_pos (by simp [h1, h2]; exact hout)]
    simp only [hn]
  · intro rc out err hdu hbad
    have hcond : ((rc == 0 || rc == 1) &&
        decide (¬ (pyStrip out.toList).isEmpty = true)) = false := by
      rcases hbad with h | h
      · have h0 : rc ≠ 0 := fun hc => h (Or.inl hc)
        have h1 : rc ≠ 1 := fun hc => h (Or.inr hc)
        have hb : (rc == 0 || rc == 1) = false := by simp [h0, h1]
        rw [hb, Bool.false_and]
      · have h2 : decide (¬ (pyStrip out.toList).isEmpty = true) = false := by
          simp [List.isEmpty_iff]
          exact h
        rw [h2, Bool.and_false]
    constructor
    · rw [get_upperdir_size, if_neg (by simp [hex])]
      simp only [hdu]
      rw [if_neg (by simp only [hcond]; decide)]
    · exact List.length_take_le 80 _
  · intro hdu
    rw [get_upperdir_size, if_neg (by simp [hex])]
    simp only [hdu]

/-- Witness for C7: exit code 1 with output still parses as success; exit
code 2 yields the truncated stderr diagnostic; a timeout reports its bound. -/
theorem C7_tool_outcomes_witness :
    get_upperdir_size (fun _ => true)
        (fun _ _ => DuOutcome.completed 1 "7\t/x" "du: denied") "/x" 60 =
      ⟨7, utils_human_bytes 7, "ok"⟩ ∧
    get_upperdir_size (fun _ => true)
        (fun _ _ => DuOutcome.completed 2 "" "boom") "/x" 60 =
      ⟨-1, "du error: boom", "error"⟩ ∧
    get_upperdir_size (fun _ => true) (fun _ _ => DuOutcome.timedOut)
        "/x" 30 =
      ⟨-1, "Timeout (30s)", "error"⟩ := by
  refine ⟨?_, ?_, ?_⟩
  · exact (C7_tool_outcomes (fun _ => true)
      (fun _ _ => DuOutcome.completed 1 "7\t/x" "du: denied") "/x" 60
      (by decide)).1 1 "7\t/x" "du: denied" 7 rfl (Or.inr rfl) (by decide)
      (by decide)
  · have h := (C7_tool_outcomes (fun _ => true)
      (fun _ _ => DuOutcome.completed 2 "" "boom") "/x" 60
      (by decide)).2.1 2 "" "boom" rfl (Or.inl (by decide))
    exact h.1.trans (by decide)
  · exact (C7_tool_outcomes (fun _ => true) (fun _ _ => DuOutcome.timedOut)
      "/x" 30 (by decide)).2.2 rfl

/-- C5: `list_children_sizes` rejects every non-absolute or NUL-containing
path with the invalid-path (`ValueError`) error, and, when the allowed-roots
list is non-empty, rejects every path contained in no configured root with
the forbidden (`PermissionError`) error; in both cases the cache is returned
untouched and no scanner is invoked (rejection precedes cache access and
sizing-tool invocation). With `allowedRoots = ["/data"]`, `"/etc"` is
forbidden while `"/data/sub"` proceeds to a successful listing. -/
theorem C5_path_safety (sc : DuScanners) (now : Int) (cache : DuCache)
    (depth timeout_sec : Nat) (one_fs : Bool) :
    (∀ path : String, pyIsAbs path = false ∨
        listContains ['\x00'] path.toList = true →
      is_safe_abs_path path = false) ∧
    (∀ path roots, is_safe_abs_path path = false →
      list_children_sizes sc now cache path depth timeout_sec one_fs roots =
        (.error (.valueError "path must be an absolute path"), cache, false)) ∧
    (∀ path roots, is_safe_abs_path path = true → roots ≠ [] →
      (∀ r ∈ roots, is_within r path = false) →
      list_children_sizes sc now cache path depth timeout_sec one_fs roots =
        (.error (.permissionError "path is outside allowed roots"), cache,
          false)) ∧
    list_children_sizes sc now cache "/etc" depth timeout_sec one_fs
        ["/data"] =
      (.error (.permissionError "path is outside allowed roots"), cache,
        false) ∧
    (∃ l, (list_children_sizes sc now cache "/data/sub" depth timeout_sec
        one_fs ["/data"]).1 = .ok l) := by
  refine ⟨?_, ?_, ?_, ?_, ?_⟩
  · intro path h
    rw [is_safe_abs_path]
    rcases h with h | h
    · split
      · rfl
      · rw [if_pos (by simp [h])]
    · rw [if_pos (Bool.or_eq_true _ _ |>.mpr (Or.inr h))]
  · intro path roots huns
    rw [list_children_sizes, if_pos (by simp [huns])]
  · intro path roots hsafe hne hout
    rw [list_children_sizes, if_neg (by simp [hsafe]), if_pos]
    have h1 : roots.isEmpty = false := by
      simpa [List.isEmpty_iff] using hne
    have h2 : roots.any (fun r => is_within r path) = false := by
      simp only [List.any_eq_false]
      intro r hr
      simp [hout r hr]
    simp [h1, h2]
  · rw [list_children_sizes, if_neg (by decide), if_pos (by decide)]
  · rcases hget : DuCache.get cache now (pyNormpath "/data/sub", depth, one_fs)
      with ⟨hit, c1⟩
    rw [list_children_sizes, if_neg (by decide), if_neg (by decide)]
    cases hit with
    | none =>
      exact ⟨build_du_listing "/data/sub"
        (if depth == 1 then sc.parallel "/data/sub"
         else sc.duTool "/data/sub" depth one_fs timeout_sec),
        by simp only [hget]⟩
    | some data => exact ⟨build_du_listing "/data/sub" data, by simp only [hget]⟩

/-- Witness for C5: a relative path and a NUL-containing path are rejected
as invalid, `"/etc"` against roots `["/data"]` is forbidden with the cache
untouched and no scanner invoked. -/
theorem C5_path_safety_witness :
    is_safe_abs_path "etc/passwd" = false ∧
    is_safe_abs_path "/a\x00b" = false ∧
    list_children_sizes ⟨fun _ => [], fun _ _ _ _ => []⟩ 0 ⟨20, []⟩
        "etc/passwd" 1 15 true [] =
      (.error (.valueError "path must be an absolute path"), ⟨20, []⟩,
        false) ∧
    list_children_sizes ⟨fun _ => [], fun _ _ _ _ => []⟩ 0 ⟨20, []⟩ "/etc" 1
        15 true ["/data"] =
      (.error (.permissionError "path is outside allowed roots"), ⟨20, []⟩,
        false) := by
  have h := C5_path_safety ⟨fun _ => [], fun _ _ _ _ => []⟩ 0 ⟨20, []⟩ 1 15
    true
  refine ⟨?_, ?_, ?_, ?_⟩
  · exact h.1 "etc/passwd" (Or.inl (by decide))
  · exact h.1 "/a\x00b" (Or.inr (by decide))
  · exact h.2.1 "etc/passwd" [] (by decide)
  · exact h.2.2.1 "/etc" ["/data"] (by decide) (by decide)
      (by intro r hr; simp at hr; subst hr; decide)

theorem work_one_notfound (fsExists : String → Bool)
    (du : String → Nat → DuOutcome) (timeout_sec : Nat) (it : WorkItem)
    (h : fsExists (resolve_target fsExists it.path) = false) :
    work_one fsExists du timeout_sec it = ⟨it, -1, "Not found", "error"⟩ := by
  rw [work_one, get_upperdir_size, if_pos (by simp [h])]

theorem work_one_status_ok (fsExists : String → Bool)
    (du : String → Nat → DuOutcome) (timeout_sec : Nat) (it : WorkItem)
    (h : measuresOk fsExists du timeout_sec it.path = true) :
    (work_one fsExists du timeout_sec it).actual_status = "ok" := by
  rw [measuresOk.eq_def] at h
  simp only [Bool.and_eq_true] at h
  obtain ⟨hfs, hdu⟩ := h
  rw [work_one, get_upperdir_size, if_neg (by simp [hfs])]
  rcases hcase : du (resolve_target fsExists it.path) timeout_sec with
    ⟨rc, out, err⟩ | _ | msg
  · rw [hcase] at hdu
    simp only [Bool.and_eq_true, Option.isSome_iff_exists] at hdu
    obtain ⟨⟨hrc, hne⟩, n, hn⟩ := hdu
    simp only [hcase]
    rw [if_pos (by rw [hrc, hne]; rfl)]
    simp only [hn]
  · rw [hcase] at hdu
    simp at hdu
  · rw [hcase] at hdu
    simp at hdu

/-- C6: for a batch of writable-path records with no filter configured where
exactly one record's path does not exist after host-prefix resolution and
the rest are measurable, `size_all` returns as many results as records, the
failing record's result is the single error (with the not-found message),
every other record's result has status ok, and dropping the failing record
leaves the other results unchanged (each result depends only on its own
record). -/
theorem C6_partial_failure (fsExists : String → Bool)
    (du : String → Nat → DuOutcome) (timeout_sec : Nat)
    (pre post : List WorkItem) (bad : WorkItem)
    (hbad : fsExists (resolve_target fsExists bad.path) = false)
    (hok : ∀ it ∈ pre ++ post, measuresOk fsExists du timeout_sec it.path = true) :
    size_all fsExists du timeout_sec (pre ++ bad :: post) =
      size_all fsExists du timeout_sec pre ++
        ⟨bad, -1, "Not found", "error"⟩ ::
          size_all fsExists du timeout_sec post ∧
    (size_all fsExists du timeout_sec (pre ++ bad :: post)).length =
      (pre ++ bad :: post).length ∧
    (size_all fsExists du timeout_sec (pre ++ bad :: post)).countP
        (fun r => r.actual_status == "error") = 1 ∧
    (∀ it ∈ pre ++ post,
      (work_one fsExists du timeout_sec it).actual_status = "ok") ∧
    size_all fsExists du timeout_sec (pre ++ post) =
      size_all fsExists du timeout_sec pre ++
        size_all fsExists du timeout_sec post := by
  have hwork : ∀ it ∈ pre ++ post,
      (work_one fsExists du timeout_sec it).actual_status = "ok" :=
    fun it hit => work_one_status_ok fsExists du timeout_sec it (hok it hit)
  have hsplit : size_all fsExists du timeout_sec (pre ++ bad :: post) =
      size_all fsExists du timeout_sec pre ++
        ⟨bad, -1, "Not found", "error"⟩ ::
          size_all fsExists du timeout_sec post := by
    rw [size_all, List.map_append, List.map_cons,
      work_one_notfound fsExists du timeout_sec bad hbad]
    rfl
  have hcount0 : ∀ l : List WorkItem, (∀ it ∈ l,
      (work_one fsExists du timeout_sec it).actual_status = "ok") →
      (l.map (work_one fsExists du timeout_sec)).countP
        (fun r => r.actual_status == "error") = 0 := by
    intro l hl
    rw [List.countP_eq_zero]
    intro r hr
    obtain ⟨it, hit, hrfl⟩ := List.mem_map.mp hr
    subst hrfl
    simp [hl it hit]
  refine ⟨hsplit, ?_, ?_, hwork, ?_⟩
  · rw [size_all, List.length_map]
  · rw [hsplit, List.countP_append, List.countP_cons]
    have h1 := hcount0 pre (fun it hit => hwork it (List.mem_append_left _ hit))
    have h2 := hcount0 post (fun it hit => hwork it (List.mem_append_right _ hit))
    rw [size_all, size_all, h1, h2]
    simp
  · rw [size_all, size_all, size_all, List.map_append]

/-- Witness for C6: a three-record batch whose middle record's path is
missing yields three results with the single not-found error in the middle
and ok results around it. -/
theorem C6_partial_failure_witness :
    size_all (fun p => ¬ p == "/gone" && ¬ p == "/host/gone")
        (fun _ _ => DuOutcome.completed 0 "512\t/q" "") 60
        [⟨"overlay", "a", "/a"⟩, ⟨"overlay", "g", "/gone"⟩,
          ⟨"emptydir", "b", "/b"⟩] =
      [⟨⟨"overlay", "a", "/a"⟩, 512, utils_human_bytes 512, "ok"⟩,
        ⟨⟨"overlay", "g", "/gone"⟩, -1, "Not found", "error"⟩,
        ⟨⟨"emptydir", "b", "/b"⟩, 512, utils_human_bytes 512, "ok"⟩] ∧
    (size_all (fun p => ¬ p == "/gone" && ¬ p == "/host/gone")
        (fun _ _ => DuOutcome.completed 0 "512\t/q" "") 60
        [⟨"overlay", "a", "/a"⟩, ⟨"overlay", "g", "/gone"⟩,
          ⟨"emptydir", "b", "/b"⟩]).countP
      (fun r => r.actual_status == "error") = 1 := by
  have h := C6_partial_failure
    (fun p => ¬ p == "/gone" && ¬ p == "/host/gone")
    (fun _ _ => DuOutcome.completed 0 "512\t/q" "") 60
    [⟨"overlay", "a", "/a"⟩] [⟨"emptydir", "b", "/b"⟩]
    ⟨"overlay", "g", "/gone"⟩ (by decide)
    (by intro it hit; fin_cases hit <;> decide)
  exact ⟨h.1.trans (by decide), h.2.2.1⟩

/-- C1: when a running-ID set was obtainable (the code's representation of
an obtainable set is a non-empty one — `get_running_container_ids` returns
the empty set on failure, which disables the filter), an overlay mount-table
entry whose container ID is absent from the set contributes nothing to the
collected records, and every collected record originates from an entry whose
ID is a member; conversely an entry whose ID is a member is emitted as an
overlay record with metadata looked up by container ID, a missing metadata
entry yielding empty name/pod/namespace fields rather than exclusion. -/
theorem C1_overlay_exclusion (lines : List String) (running : List String)
    (info : List (String × ContainerMeta)) (hrun : running ≠ []) :
    (∀ l ∈ lines, ∀ mp ud cid,
      parse_overlay_line l = some (mp, ud, cid) → cid ∉ running →
      emit_overlay_line running info l = none) ∧
    (∀ rec ∈ get_overlay_upperdirs lines running info,
      ∃ l ∈ lines, ∃ mp ud cid,
        parse_overlay_line l = some (mp, ud, cid) ∧ cid ∈ running ∧
        rec = mkOverlayRec info mp ud cid) ∧
    (∀ l ∈ lines, ∀ mp ud cid,
      parse_overlay_line l = some (mp, ud, cid) → cid ∈ running →
      mkOverlayRec info mp ud cid ∈ get_overlay_upperdirs lines running info) ∧
    (∀ mp ud cid, info.lookup cid = none →
      (mkOverlayRec info mp ud cid).container_name = "" ∧
      (mkOverlayRec info mp ud cid).pod = "" ∧
      (mkOverlayRec info mp ud cid).namespc = "") := by
  have hne : running.isEmpty = false := by
    simpa [List.isEmpty_iff] using hrun
  refine ⟨?_, ?_, ?_, ?_⟩
  · intro l _ mp ud cid hparse hmem
    have hc : running.contains cid = false := by
      simp [List.elem_eq_mem, hmem]
    rw [emit_overlay_line]
    simp only [hparse]
    rw [if_pos (by rw [hne, hc]; decide)]
  · intro rec hrec
    obtain ⟨l, hl, hemit⟩ := List.mem_filterMap.mp hrec
    rw [emit_overlay_line] at hemit
    rcases hparse : parse_overlay_line l with _ | ⟨mp, ud, cid⟩
    · simp only [hparse] at hemit
      exact absurd hemit (by simp)
    · simp only [hparse] at hemit
      by_cases hmem : cid ∈ running
      · refine ⟨l, hl, mp, ud, cid, hparse, hmem, ?_⟩
        have hc : running.contains cid = true := by
          simp [List.elem_eq_mem, hmem]
        rw [if_neg (by rw [hne, hc]; decide)] at hemit
        exact (Option.some_inj.mp hemit).symm
      · have hc : running.contains cid = false := by
          simp [List.elem_eq_mem, hmem]
        rw [if_pos (by rw [hne, hc]; decide)] at hemit
        exact absurd hemit (by simp)
  · intro l hl mp ud cid hparse hmem
    apply List.mem_filterMap.mpr
    refine ⟨l, hl, ?_⟩
    have hc : running.contains cid = true := by
      simp [List.elem_eq_mem, hmem]
    rw [emit_overlay_line]
    simp only [hparse]
    rw [if_neg (by rw [hne, hc]; decide)]
  · intro mp ud cid hlook
    rw [mkOverlayRec]
    simp [hlook]

/-- Witness for C1: with running set `["cafe1234567890ab"]`, a lingering
overlay entry for the exited container `dead000000000000` is dropped, the
entry for the running container is emitted (with metadata from the map), and
a record whose ID has no metadata gets empty fields. -/
theorem C1_overlay_exclusion_witness :
    emit_overlay_line ["cafe1234567890ab"]
        [("cafe1234567890ab", ⟨"app", "pod-1", "default"⟩)]
        "1 2 0:1 / /run/containerd/io.containerd.runtime.v2.task/k8s.io/dead000000000000/rootfs rw - overlay overlay rw,upperdir=/var/snap/9/fs,workdir=/w" =
      none ∧
    mkOverlayRec [("cafe1234567890ab", ⟨"app", "pod-1", "default"⟩)]
        "/run/containerd/io.containerd.runtime.v2.task/k8s.io/cafe1234567890ab/rootfs"
        "/var/snap/5/fs" "cafe1234567890ab" ∈
      get_overlay_upperdirs
        ["1 2 0:1 / /run/containerd/io.containerd.runtime.v2.task/k8s.io/cafe1234567890ab/rootfs rw - overlay overlay rw,upperdir=/var/snap/5/fs,workdir=/w"]
        ["cafe1234567890ab"]
        [("cafe1234567890ab", ⟨"app", "pod-1", "default"⟩)] ∧
    (mkOverlayRec [] "/mp" "/ud" "nometa").container_name = "" := by
  have h := C1_overlay_exclusion
    ["1 2 0:1 / /run/containerd/io.containerd.runtime.v2.task/k8s.io/cafe1234567890ab/rootfs rw - overlay overlay rw,upperdir=/var/snap/5/fs,workdir=/w"]
    ["cafe1234567890ab"]
    [("cafe1234567890ab", ⟨"app", "pod-1", "default"⟩)] (by decide)
  have h2 := C1_overlay_exclusion
    ["1 2 0:1 / /run/containerd/io.containerd.runtime.v2.task/k8s.io/dead000000000000/rootfs rw - overlay overlay rw,upperdir=/var/snap/9/fs,workdir=/w"]
    ["cafe1234567890ab"]
    [("cafe1234567890ab", ⟨"app", "pod-1", "default"⟩)] (by decide)
  refine ⟨?_, ?_, ?_⟩
  · exact h2.1
      "1 2 0:1 / /run/containerd/io.containerd.runtime.v2.task/k8s.io/dead000000000000/rootfs rw - overlay overlay rw,upperdir=/var/snap/9/fs,workdir=/w"
      (by simp)
      "/run/containerd/io.containerd.runtime.v2.task/k8s.io/dead000000000000/rootfs"
      "/var/snap/9/fs" "dead000000000000" (by decide) (by decide)
  · exact h.2.2.1
      "1 2 0:1 / /run/containerd/io.containerd.runtime.v2.task/k8s.io/cafe1234567890ab/rootfs rw - overlay overlay rw,upperdir=/var/snap/5/fs,workdir=/w"
      (by simp)
      "/run/containerd/io.containerd.runtime.v2.task/k8s.io/cafe1234567890ab/rootfs"
      "/var/snap/5/fs" "cafe1234567890ab" (by decide) (by decide)
  · exact (h.2.2.2 "/mp" "/ud" "nometa" (by decide)).1

/-- C8: sorting sized records with sort key `size` yields a permutation of
the input that is non-increasing in `actual_bytes`; under the `-1` sentinel
(every non-ok record carries `-1` and every ok record a non-negative count),
no non-ok (`Error`/`Skip`) record precedes an ok record, i.e. they all sort
after every ok record. -/
theorem C8_sort_by_size (rs : List SizedRecord)
    (hsent : ∀ r ∈ rs, (r.actual_status = "ok" → 0 ≤ r.actual_bytes) ∧
      (r.actual_status ≠ "ok" → r.actual_bytes = -1)) :
    (sort_by_size rs).Perm rs ∧
    (sort_by_size rs).Sorted (fun a b => b.actual_bytes ≤ a.actual_bytes) ∧
    (∀ i j (hi : i < (sort_by_size rs).length)
        (hj : j < (sort_by_size rs).length), i < j →
      ((sort_by_size rs).get ⟨i, hi⟩).actual_status ≠ "ok" →
      ((sort_by_size rs).get ⟨j, hj⟩).actual_status ≠ "ok") := by
  haveI htot : IsTotal SizedRecord
      (fun a b => b.actual_bytes ≤ a.actual_bytes) :=
    ⟨fun a b => le_total b.actual_bytes a.actual_bytes⟩
  haveI htr : IsTrans SizedRecord
      (fun a b => b.actual_bytes ≤ a.actual_bytes) :=
    ⟨fun _ _ _ hab hbc => le_trans hbc hab⟩
  have hperm : (sort_by_size rs).Perm rs := List.perm_insertionSort _ rs
  have hsorted : (sort_by_size rs).Sorted
      (fun a b => b.actual_bytes ≤ a.actual_bytes) :=
    List.sorted_insertionSort _ rs
  refine ⟨hperm, hsorted, ?_⟩
  intro i j hi hj hij hbad hok
  have hmem_i : (sort_by_size rs).get ⟨i, hi⟩ ∈ rs :=
    hperm.mem_iff.mp (List.get_mem _ _ _)
  have hmem_j : (sort_by_size rs).get ⟨j, hj⟩ ∈ rs :=
    hperm.mem_iff.mp (List.get_mem _ _ _)
  have hrel := hsorted.rel_get_of_lt
    (a := ⟨i, hi⟩) (b := ⟨j, hj⟩) (by exact hij)
  have h1 : ((sort_by_size rs).get ⟨i, hi⟩).actual_bytes = -1 :=
    (hsent _ hmem_i).2 hbad
  have h2 : 0 ≤ ((sort_by_size rs).get ⟨j, hj⟩).actual_bytes :=
    (hsent _ hmem_j).1 hok
  omega

/-- Witness for C8: a concrete batch with an error record between two ok
records sorts to `[9, 5, -1]` with the error record last. -/
theorem C8_sort_by_size_witness :
    (sort_by_size
        [⟨⟨"overlay", "a", "/a"⟩, 5, "5 B", "ok"⟩,
          ⟨⟨"overlay", "g", "/g"⟩, -1, "Not found", "error"⟩,
          ⟨⟨"emptydir", "b", "/b"⟩, 9, "9 B", "ok"⟩]).Perm
      [⟨⟨"overlay", "a", "/a"⟩, 5, "5 B", "ok"⟩,
        ⟨⟨"overlay", "g", "/g"⟩, -1, "Not found", "error"⟩,
        ⟨⟨"emptydir", "b", "/b"⟩, 9, "9 B", "ok"⟩] ∧
    (sort_by_size
        [⟨⟨"overlay", "a", "/a"⟩, 5, "5 B", "ok"⟩,
          ⟨⟨"overlay", "g", "/g"⟩, -1, "Not found", "error"⟩,
          ⟨⟨"emptydir", "b", "/b"⟩, 9, "9 B", "ok"⟩]) =
      [⟨⟨"emptydir", "b", "/b"⟩, 9, "9 B", "ok"⟩,
        ⟨⟨"overlay", "a", "/a"⟩, 5, "5 B", "ok"⟩,
        ⟨⟨"overlay", "g", "/g"⟩, -1, "Not found", "error"⟩] := by
  refine ⟨?_, by decide⟩
  exact (C8_sort_by_size
    [⟨⟨"overlay", "a", "/a"⟩, 5, "5 B", "ok"⟩,
      ⟨⟨"overlay", "g", "/g"⟩, -1, "Not found", "error"⟩,
      ⟨⟨"emptydir", "b", "/b"⟩, 9, "9 B", "ok"⟩]
    (by decide)).1

theorem DuCache.ttl_get (c : DuCache) (now : Int) (k : DuKey) :
    ((c.get now k).2).ttl_sec = c.ttl_sec := by
  rw [DuCache.get]
  rcases c.entries.lookup k with _ | ⟨ts, data⟩
  · rfl
  · dsimp only
    split <;> rfl

theorem DuCache.lookup_set (c : DuCache) (now : Int) (k : DuKey)
    (d : List DuEntry) : ((c.set now k d).entries).lookup k = some (now, d) := by
  rw [DuCache.set]
  simp [List.lookup]

/-- C4: under a cache state where the key `(normpath path, depth, one_fs)` is
absent (or expired), a first `list_children_sizes` call invokes the scanner;
a second identical call within the TTL window does not invoke it again and
returns the same listing verbatim, leaving the cache unchanged; a further
identical call after TTL expiry invokes the scanner afresh. -/
theorem C4_cache_ttl (sc : DuScanners) (c0 : DuCache) (path : String)
    (depth timeout_sec : Nat) (one_fs : Bool) (roots : List String)
    (t0 t1 t2 : Int)
    (hsafe : is_safe_abs_path path = true)
    (hroots : roots = [] ∨ roots.any (fun r => is_within r path) = true)
    (hmiss : (c0.get t0 (pyNormpath path, depth, one_fs)).1 = none)
    (h01 : t1 - t0 ≤ c0.ttl_sec)
    (h02 : c0.ttl_sec < t2 - t0) :
    (list_children_sizes sc t0 c0 path depth timeout_sec one_fs roots).2.2 =
      true ∧
    (list_children_sizes sc t1
      (list_children_sizes sc t0 c0 path depth timeout_sec one_fs roots).2.1
      path depth timeout_sec one_fs roots).2.2 = false ∧
    (list_children_sizes sc t1
      (list_children_sizes sc t0 c0 path depth timeout_sec one_fs roots).2.1
      path depth timeout_sec one_fs roots).1 =
      (list_children_sizes sc t0 c0 path depth timeout_sec one_fs roots).1 ∧
    (list_children_sizes sc t1
      (list_children_sizes sc t0 c0 path depth timeout_sec one_fs roots).2.1
      path depth timeout_sec one_fs roots).2.1 =
      (list_children_sizes sc t0 c0 path depth timeout_sec one_fs roots).2.1 ∧
    (list_children_sizes sc t2
      (list_children_sizes sc t0 c0 path depth timeout_sec one_fs roots).2.1
      path depth timeout_sec one_fs roots).2.2 = true := by
  have hg2 : ¬ ((¬ roots.isEmpty && ¬ roots.any (fun r => is_within r path))
      = true) := by
    rcases hroots with h | h
    · subst h; simp
    · rw [h]; simp
  have hcall : ∀ (now : Int) (c : DuCache),
      list_children_sizes sc now c path depth timeout_sec one_fs roots =
        (match c.get now (pyNormpath path, depth, one_fs) with
         | (some d, c1) => (.ok (build_du_listing path d), c1, false)
         | (none, c1) =>
           (.ok (build_du_listing path
              (if depth == 1 then sc.parallel path
               else sc.duTool path depth one_fs timeout_sec)),
            c1.set now (pyNormpath path, depth, one_fs)
              (if depth == 1 then sc.parallel path
               else sc.duTool path depth one_fs timeout_sec), true)) := by
    intro now c
    rw [list_children_sizes, if_neg (by simp [hsafe]), if_neg hg2]
  rcases hget0 : c0.get t0 (pyNormpath path, depth, one_fs) with ⟨o, c0x⟩
  have ho : o = none := by
    have := hmiss
    rw [hget0] at this
    exact this
  subst ho
  have hr0 : list_children_sizes sc t0 c0 path depth timeout_sec one_fs roots =
      (.ok (build_du_listing path
         (if depth == 1 then sc.parallel path
          else sc.duTool path depth one_fs timeout_sec)),
       c0x.set t0 (pyNormpath path, depth, one_fs)
         (if depth == 1 then sc.parallel path
          else sc.duTool path depth one_fs timeout_sec), true) := by
    rw [hcall t0 c0, hget0]
  have httl0 : c0x.ttl_sec = c0.ttl_sec := by
    have := DuCache.ttl_get c0 t0 (pyNormpath path, depth, one_fs)
    rw [hget0] at this
    exact this
  have httl1 : (c0x.set t0 (pyNormpath path, depth, one_fs)
      (if depth == 1 then sc.parallel path
       else sc.duTool path depth one_fs timeout_sec)).ttl_sec = c0.ttl_sec := by
    rw [DuCache.set]
    exact httl0
  have hlk : ((c0x.set t0 (pyNormpath path, depth, one_fs)
      (if depth == 1 then sc.parallel path
       else sc.duTool path depth one_fs timeout_sec)).entries).lookup
        (pyNormpath path, depth, one_fs) =
      some (t0, (if depth == 1 then sc.parallel path
        else sc.duTool path depth one_fs timeout_sec)) :=
    DuCache.lookup_set c0x t0 (pyNormpath path, depth, one_fs) _
  have hget1 : (c0x.set t0 (pyNormpath path, depth, one_fs)
      (if depth == 1 then sc.parallel path
       else sc.duTool path depth one_fs timeout_sec)).get t1
        (pyNormpath path, depth, one_fs) =
      (some (if depth == 1 then sc.parallel path
        else sc.duTool path depth one_fs timeout_sec),
       c0x.set t0 (pyNormpath path, depth, one_fs)
         (if depth == 1 then sc.parallel path
          else sc.duTool path depth one_fs timeout_sec)) := by
    rw [DuCache.get]
    simp only [hlk]
    rw [if_neg (by rw [httl1]; omega)]
  have hget2 : (c0x.set t0 (pyNormpath path, depth, one_fs)
      (if depth == 1 then sc.parallel path
       else sc.duTool path depth one_fs timeout_sec)).get t2
        (pyNormpath path, depth, one_fs) =
      (none, ⟨(c0x.set t0 (pyNormpath path, depth, one_fs)
         (if depth == 1 then sc.parallel path
          else sc.duTool path depth one_fs timeout_sec)).ttl_sec,
        ((c0x.set t0 (pyNormpath path, depth, one_fs)
         (if depth == 1 then sc.parallel path
          else sc.duTool path depth one_fs timeout_sec)).entries).filter
          (fun e => ¬ (e.1 == (pyNormpath path, depth, one_fs)))⟩) := by
    rw [DuCache.get]
    simp only [hlk]
    rw [if_pos (by rw [httl1]; omega)]
  refine ⟨?_, ?_, ?_, ?_, ?_⟩
  · rw [hr0]
  · rw [hr0]
    rw [hcall t1 _]
    simp only [hget1]
  · rw [hr0]
    rw [hcall t1 _]
    simp only [hget1]
  · rw [hr0]
    rw [hcall t1 _]
    simp only [hget1]
  · rw [hr0]
    rw [hcall t2 _]
    simp only [hget2]

/-- Witness for C4: with a 20-second TTL and an empty cache, the first call
at t=0 scans, the second at t=15 reuses the cached rows verbatim, and a call
at t=25 scans again. -/
theorem C4_cache_ttl_witness :
    (list_children_sizes ⟨fun _ => [⟨"/data/s/a", 5⟩, ⟨"/data/s", 5⟩],
        fun _ _ _ _ => []⟩ 0 ⟨20, []⟩ "/data/s" 1 15 true []).2.2 = true ∧
    (list_children_sizes ⟨fun _ => [⟨"/data/s/a", 5⟩, ⟨"/data/s", 5⟩],
        fun _ _ _ _ => []⟩ 15
      (list_children_sizes ⟨fun _ => [⟨"/data/s/a", 5⟩, ⟨"/data/s", 5⟩],
        fun _ _ _ _ => []⟩ 0 ⟨20, []⟩ "/data/s" 1 15 true []).2.1
      "/data/s" 1 15 true []).2.2 = false ∧
    (list_children_sizes ⟨fun _ => [⟨"/data/s/a", 5⟩, ⟨"/data/s", 5⟩],
        fun _ _ _ _ => []⟩ 15
      (list_children_sizes ⟨fun _ => [⟨"/data/s/a", 5⟩, ⟨"/data/s", 5⟩],
        fun _ _ _ _ => []⟩ 0 ⟨20, []⟩ "/data/s" 1 15 true []).2.1
      "/data/s" 1 15 true []).1 =
      (list_children_sizes ⟨fun _ => [⟨"/data/s/a", 5⟩, ⟨"/data/s", 5⟩],
        fun _ _ _ _ => []⟩ 0 ⟨20, []⟩ "/data/s" 1 15 true []).1 ∧
    (list_children_sizes ⟨fun _ => [⟨"/data/s/a", 5⟩, ⟨"/data/s", 5⟩],
        fun _ _ _ _ => []⟩ 25
      (list_children_sizes ⟨fun _ => [⟨"/data/s/a", 5⟩, ⟨"/data/s", 5⟩],
        fun _ _ _ _ => []⟩ 0 ⟨20, []⟩ "/data/s" 1 15 true []).2.1
      "/data/s" 1 15 true []).2.2 = true := by
  have h := C4_cache_ttl ⟨fun _ => [⟨"/data/s/a", 5⟩, ⟨"/data/s", 5⟩],
      fun _ _ _ _ => []⟩ ⟨20, []⟩ "/data/s" 1 15 true [] 0 15 25
    (by decide) (Or.inl rfl) (by decide) (by decide) (by decide)
  exact ⟨h.1, h.2.1, h.2.2.1, h.2.2.2.2⟩
